import Mathlib

/-!
Verification of the recurring-order occurrence projection and the
modification workflow of the laundry-order management application.

The projection engine is embedded from `generateRecurringOccurrences`
in the OrderCalendar component (src/unnamed/part_000, lines 1312-1352).
Dates are modelled as proleptic Gregorian calendar dates; the date-fns
helpers `addDays`, `addWeeks` and `addMonths` used by the source are
embedded below (`addWeeks d v = addDays d (7*v)`, and `addMonths` clamps
the day to the last valid day of the target month, as date-fns does).
-/

namespace Laundry

/-- A calendar date (proleptic Gregorian).  JavaScript `Date` values carry a
time of day as well; the projection logic only ever shifts whole days or
months, so the date part suffices. -/
structure Date where
  year : Int
  month : Nat
  day : Nat
deriving DecidableEq, Repr

/-- Gregorian leap-year test. -/
def isLeap (y : Int) : Bool :=
  (y.emod 4 == 0 && y.emod 100 != 0) || y.emod 400 == 0

/-- Number of days in a month of a given year. -/
def daysInMonth (y : Int) (m : Nat) : Nat :=
  if m = 2 then (if isLeap y then 29 else 28)
  else if m = 4 ∨ m = 6 ∨ m = 9 ∨ m = 11 then 30
  else 31

/-- A structurally valid calendar date. -/
def Valid (d : Date) : Prop :=
  1 ≤ d.month ∧ d.month ≤ 12 ∧ 1 ≤ d.day ∧ d.day ≤ daysInMonth d.year d.month

instance (d : Date) : Decidable (Valid d) := by
  unfold Valid; infer_instance

/-- Linear key giving the chronological order of valid dates (JavaScript
compares `Date` values by their timestamps, which orders valid dates
lexicographically by year, month, day; for valid dates `month ≤ 12 < 32`
and `day ≤ 31 < 32`, so this base-512/32 encoding realises that order). -/
def key (d : Date) : Int :=
  d.year * 512 + d.month * 32 + d.day

/-- The day after `d`. -/
def nextDay (d : Date) : Date :=
  if d.day < daysInMonth d.year d.month then ⟨d.year, d.month, d.day + 1⟩
  else if d.month < 12 then ⟨d.year, d.month + 1, 1⟩
  else ⟨d.year + 1, 1, 1⟩

/-- The day before `d`. -/
def prevDay (d : Date) : Date :=
  if 1 < d.day then ⟨d.year, d.month, d.day - 1⟩
  else if 1 < d.month then ⟨d.year, d.month - 1, daysInMonth d.year (d.month - 1)⟩
  else ⟨d.year - 1, 12, 31⟩

/-- Add `n` days by iterating `nextDay`. -/
def addDaysN : Nat → Date → Date
  | 0, d => d
  | n + 1, d => addDaysN n (nextDay d)

/-- Subtract `n` days by iterating `prevDay`. -/
def subDaysN : Nat → Date → Date
  | 0, d => d
  | n + 1, d => subDaysN n (prevDay d)

/-- The date-fns `addDays(d, k)` for a possibly negative integer `k`. -/
def addDays (k : Int) (d : Date) : Date :=
  if 0 ≤ k then addDaysN k.toNat d else subDaysN (-k).toNat d

/-- The date-fns `addMonths(d, v)`: shift the year/month index by `v` and
clamp the day-of-month to the last valid day of the target month. -/
def addMonths (v : Int) (d : Date) : Date :=
  let m1 : Int := d.year * 12 + ((d.month : Int) - 1) + v
  let y := m1.ediv 12
  let mo := (m1.emod 12).toNat + 1
  ⟨y, mo, min d.day (daysInMonth y mo)⟩

/-- Modification workflow status of an order
(`modification_status`: null, `"pending"`, `"approved"` or `"rejected"`;
the null case is `Option.none` at the use site). -/
inductive ModStatus where
  | pending
  | approved
  | rejected
deriving DecidableEq, Repr

/-- A line item of an order: `{sku identifier, quantity, unit price}`.
Money amounts are exact decimals, modelled as rationals. -/
structure Item where
  sku_name : String
  quantity : ℚ
  price : ℚ
deriving DecidableEq, Repr

/-- A pending modification proposal (`pending_modifications`): an optional
replacement item set and the proposed (tax-exclusive) total. -/
structure Proposal where
  items : Option (List Item)
  total_amount : ℚ
deriving DecidableEq, Repr

/-- An order record, with the fields read by the occurrence projection
(`is_recurring`, `recurrence_pattern`, `delivery_date`, `status`, `id`)
and by the modification workflow (`items`, `total_amount`,
`modification_status`, `pending_modifications`).  `delivery_date` is
`none` when the field is absent/null; `recurrence_pattern` likewise. -/
structure RecurrencePattern where
  frequency_type : String
  frequency_value : Option Int
deriving DecidableEq, Repr

structure Order where
  id : String
  is_recurring : Bool
  recurrence_pattern : Option RecurrencePattern
  delivery_date : Option Date
  status : String
  items : List Item
  total_amount : ℚ
  modification_status : Option ModStatus
  pending_modifications : Option Proposal
deriving DecidableEq, Repr

/-- A projected occurrence.  The source pushes `{...order, delivery_date:
format(currentDate, ...), isRecurringInstance: true, originalOrderId:
order.id}`: a copy of the order with the projected delivery date and the
two extra marker fields. -/
structure Occurrence where
  base : Order
  delivery_date : Date
  isRecurringInstance : Bool
  originalOrderId : String
deriving DecidableEq, Repr

/-- One advance of the projection cursor, by `frequency_value` units of
`frequency_type`: daily adds `fv` days, weekly adds `7*fv` days
(date-fns `addWeeks`), monthly adds `fv` calendar months; an
unrecognized `frequency_type` yields `none` (the source loop breaks). -/
def advanceDate (ft : String) (fv : Int) (d : Date) : Option Date :=
  if ft = "daily" then some (addDays fv d)
  else if ft = "weekly" then some (addDays (7 * fv) d)
  else if ft = "monthly" then some (addMonths fv d)
  else none

/-- The safety limit of the source: `const maxIterations = 200`. -/
def maxIterations : Nat := 200

/-- The projection loop of `generateRecurringOccurrences`, with the
remaining fuel `maxIterations - iteration` as the recursion measure.
Returns the emitted occurrences together with the number of `iteration++`
executions (the loop counter's final value, counted from this point on).
Mirrors the source: while `currentDate <= sixMonthsFromNow` and
`iteration < maxIterations`, emit a copy of the order at `currentDate`
when `currentDate > startDate`, then advance by one interval, breaking
out (before `iteration++`) when the frequency type is unrecognized. -/
def projLoop (o : Order) (ft : String) (fv : Int) (anchor horizon : Date) :
    Date → Nat → List Occurrence × Nat
  | current, fuel + 1 =>
    if key current ≤ key horizon then
      match advanceDate ft fv current with
      | some next =>
        ((if key anchor < key current then [⟨o, current, true, o.id⟩] else []) ++
            (projLoop o ft fv anchor horizon next fuel).1,
          (projLoop o ft fv anchor horizon next fuel).2 + 1)
      | none =>
        ((if key anchor < key current then [⟨o, current, true, o.id⟩] else []), 0)
    else ([], 0)
  | _, 0 => ([], 0)

/-- Embedding of `generateRecurringOccurrences` (src/unnamed/part_000,
lines 1312-1352), returning the occurrence list together with the loop
counter's final value.  The source computes the horizon internally as
`addMonths(new Date(), 6)`; the wall-clock-dependent horizon is passed
here as the `horizon` parameter.  `frequency_value = 1` is the
destructuring default, applied only when the field is absent
(`Option.getD`), exactly as `const { frequency_value = 1 } = ...`. -/
def generateRecurringOccurrencesIter (horizon : Date) (order : Order) :
    List Occurrence × Nat :=
  if order.is_recurring = false ∨ order.recurrence_pattern = none ∨
      order.delivery_date = none ∨ order.status = "cancelled" then ([], 0)
  else
    match order.recurrence_pattern, order.delivery_date with
    | some rp, some startDate =>
      let fv := rp.frequency_value.getD 1
      projLoop order rp.frequency_type fv startDate horizon startDate maxIterations
    | _, _ => ([], 0)

/-- The occurrence list produced by `generateRecurringOccurrences`. -/
def generateRecurringOccurrences (horizon : Date) (order : Order) :
    List Occurrence :=
  (generateRecurringOccurrencesIter horizon order).1

/-- Half-up rounding to 2 decimal places over exact decimals
(`round(x, 2)` of the spec; also the model of JavaScript `toFixed(2)`
on the non-negative money amounts used here). -/
def round2 (x : ℚ) : ℚ :=
  (⌊x * 100 + 1 / 2⌋ : ℚ) / 100

/-- The configured tax rate (10% GST). -/
def TAX_RATE : ℚ := 10 / 100

/-- Result shape of `PriceCalculator.computeTotal`. -/
structure PriceBreakdown where
  subtotal : ℚ
  tax : ℚ
  total : ℚ
deriving DecidableEq, Repr

/-- Modelled from the spec: `PriceCalculator.computeTotal(items)` is not
under src/ (it lives in the backend, of which only documentation and the
GST display consumer are present).  Per §4.1: `subtotal = Σ(quantity_i ×
unit_price_i)`, `tax = round(subtotal × TAX_RATE, 2)` with half-up
rounding to 2 decimal places, `total = subtotal + tax`. -/
def computeTotal (items : List Item) : PriceBreakdown :=
  { subtotal := (items.map (fun it => it.quantity * it.price)).sum
    tax := round2 ((items.map (fun it => it.quantity * it.price)).sum * TAX_RATE)
    total := (items.map (fun it => it.quantity * it.price)).sum +
      round2 ((items.map (fun it => it.quantity * it.price)).sum * TAX_RATE) }

/-- The GST line of the order-detail display block (src/unnamed/part_000,
line 1885): `(selectedOrder.total_amount * 0.10).toFixed(2)`. -/
def gstAmount (total_amount : ℚ) : ℚ :=
  round2 (total_amount * (10 / 100))

/-- The tax-inclusive total of the display block (src/unnamed/part_000,
line 1893): `(selectedOrder.total_amount * 1.10).toFixed(2)`. -/
def gstInclusiveTotal (total_amount : ℚ) : ℚ :=
  round2 (total_amount * (110 / 100))

/-- Errors of the modification workflow (spec §7). -/
inductive WorkflowError where
  | invalidItemError
  | invalidProposalError
  | noPendingModificationError
deriving DecidableEq, Repr

/-- Modelled from the spec: the `approve-modification` endpoint
(backend/server.py, not under src/).  Per §4.3: requires
`modification_status == pending` (else `NoPendingModificationError`);
always recomputes `total_amount` from `pending_modifications.items` when
items are present, else keeps the explicit
`pending_modifications.total_amount`; replaces `order.items` with the
proposed items when provided; sets `modification_status = approved` and
clears `pending_modifications = null`; returns the updated order. -/
def approve (o : Order) : Except WorkflowError Order :=
  match o.modification_status, o.pending_modifications with
  | some ModStatus.pending, some pm =>
    Except.ok { o with
      items := pm.items.getD o.items
      total_amount :=
        match pm.items with
        | some its => (computeTotal its).subtotal
        | none => pm.total_amount
      modification_status := some ModStatus.approved
      pending_modifications := none }
  | _, _ => Except.error WorkflowError.noPendingModificationError

/-- Modelled from the spec: the `reject-modification` endpoint
(backend/server.py, not under src/).  Per §4.3: requires
`modification_status == pending`; leaves `items` and `total_amount`
unchanged; sets `modification_status = rejected`, clears
`pending_modifications = null`, and returns the otherwise-unchanged
order. -/
def reject (o : Order) : Except WorkflowError Order :=
  match o.modification_status with
  | some ModStatus.pending =>
    Except.ok { o with
      modification_status := some ModStatus.rejected
      pending_modifications := none }
  | _ => Except.error WorkflowError.noPendingModificationError

/-- The end-to-end scenario order of the spec (§8, property 8): weekly
recurrence with interval 1, anchored at 2025-01-01. -/
def exampleWeeklyOrder : Order :=
  { id := "order-1"
    is_recurring := true
    recurrence_pattern := some ⟨"weekly", some 1⟩
    delivery_date := some ⟨2025, 1, 1⟩
    status := "scheduled"
    items := []
    total_amount := 0
    modification_status := none
    pending_modifications := none }

/-- The scenario horizon 2025-01-31. -/
def exampleHorizon : Date := ⟨2025, 1, 31⟩

/-- The example order with a zero-interval weekly pattern
(`frequency_value = 0`). -/
def zeroIntervalOrder : Order :=
  { exampleWeeklyOrder with recurrence_pattern := some ⟨"weekly", some 0⟩ }

/-- The example order with a backward-moving daily pattern
(`frequency_value = -3`). -/
def negativeIntervalOrder : Order :=
  { exampleWeeklyOrder with recurrence_pattern := some ⟨"daily", some (-3)⟩ }

/-- The example order with an unrecognized frequency type. -/
def unknownTypeOrder : Order :=
  { exampleWeeklyOrder with recurrence_pattern := some ⟨"fortnightly", some 1⟩ }

/-- The example order, cancelled. -/
def cancelledOrder : Order :=
  { exampleWeeklyOrder with status := "cancelled" }

/-- The items of the modification scenario (§8, property 6): pre-proposal
item set `[{qty:2, price:30}]` (subtotal 60). -/
def preItems : List Item := [⟨"Shirt", 2, 30⟩]

/-- The proposed replacement item set `[{qty:1, price:60}, {qty:1,
price:35}]` (subtotal 95). -/
def proposedItems : List Item := [⟨"Shirt", 1, 60⟩, ⟨"Pants", 1, 35⟩]

/-- The modification scenario order: pre-proposal items totalling 60,
with a pending proposal carrying `proposedItems`. -/
def modOrder : Order :=
  { id := "order-2"
    is_recurring := false
    recurrence_pattern := none
    delivery_date := some ⟨2025, 2, 1⟩
    status := "pending"
    items := preItems
    total_amount := 60
    modification_status := some ModStatus.pending
    pending_modifications := some ⟨some proposedItems, 95⟩ }

/-- The expected post-approval state of `modOrder`: proposed items
installed, total recomputed from them, proposal slot cleared. -/
def modOrderApproved : Order :=
  { modOrder with
    items := proposedItems
    total_amount := (computeTotal proposedItems).subtotal
    modification_status := some ModStatus.approved
    pending_modifications := none }

/-! ### Helper lemmas about the projection loop -/

theorem projLoop_length_le (o : Order) (ft : String) (fv : Int)
    (anchor horizon : Date) :
    ∀ fuel current, (projLoop o ft fv anchor horizon current fuel).1.length ≤ fuel := by
  intro fuel
  induction fuel with
  | zero => intro current; simp [projLoop]
  | succ n ih =>
    intro current
    simp only [projLoop]
    split
    · cases hadv : advanceDate ft fv current with
      | some next =>
        simp only [hadv, List.length_append]
        have := ih next
        split <;> simp <;> omega
      | none =>
        simp only [hadv]
        split <;> simp
    · simp

theorem projLoop_iters_le (o : Order) (ft : String) (fv : Int)
    (anchor horizon : Date) :
    ∀ fuel current, (projLoop o ft fv anchor horizon current fuel).2 ≤ fuel := by
  intro fuel
  induction fuel with
  | zero => intro current; simp [projLoop]
  | succ n ih =>
    intro current
    simp only [projLoop]
    split
    · cases hadv : advanceDate ft fv current with
      | some next =>
        simp only [hadv]
        have := ih next
        omega
      | none => simp [hadv]
    · simp

theorem projLoop_mem_bounds (o : Order) (ft : String) (fv : Int)
    (anchor horizon : Date) :
    ∀ fuel current occ, occ ∈ (projLoop o ft fv anchor horizon current fuel).1 →
      key anchor < key occ.delivery_date ∧ key occ.delivery_date ≤ key horizon := by
  intro fuel
  induction fuel with
  | zero => intro current occ hocc; simp [projLoop] at hocc
  | succ n ih =>
    intro current occ hocc
    simp only [projLoop] at hocc
    split at hocc
    case isTrue hle =>
      cases hadv : advanceDate ft fv current with
      | some next =>
        rw [hadv] at hocc
        simp only [List.mem_append] at hocc
        rcases hocc with hocc | hocc
        · split at hocc
          case isTrue hgt => simp at hocc; subst hocc; exact ⟨hgt, hle⟩
          case isFalse => simp at hocc
        · exact ih next occ hocc
      | none =>
        rw [hadv] at hocc
        split at hocc
        next hgt => exact absurd hgt (by simp)
        next =>
          split at hocc
          next hgt => simp at hocc; subst hocc; exact ⟨hgt, hle⟩
          next => simp at hocc
    case isFalse => simp at hocc

/-! ### Calendar arithmetic lemmas -/

theorem daysInMonth_pos (y : Int) (m : Nat) : 1 ≤ daysInMonth y m := by
  unfold daysInMonth
  split
  · split <;> norm_num
  · split <;> norm_num

theorem daysInMonth_le (y : Int) (m : Nat) : daysInMonth y m ≤ 31 := by
  unfold daysInMonth
  split
  · split <;> norm_num
  · split <;> norm_num

theorem prevDay_key_lt (d : Date) (h : Valid d) : key (prevDay d) < key d := by
  obtain ⟨h1, h2, h3, h4⟩ := h
  have h5 := daysInMonth_le d.year d.month
  have h6 := daysInMonth_le d.year (d.month - 1)
  unfold prevDay key
  split
  · simp only
    omega
  · split
    · simp only
      omega
    · simp only
      omega

theorem prevDay_valid (d : Date) (h : Valid d) : Valid (prevDay d) := by
  obtain ⟨h1, h2, h3, h4⟩ := h
  have h5 := daysInMonth_pos d.year (d.month - 1)
  unfold prevDay Valid
  split
  · simp only
    omega
  · split
    · simp only
      refine ⟨by omega, by omega, by omega, le_refl _⟩
    · simp only
      refine ⟨by omega, by omega, by omega, ?_⟩
      unfold daysInMonth
      norm_num

theorem subDaysN_key_le (n : Nat) (d : Date) (h : Valid d) :
    key (subDaysN n d) ≤ key d ∧ Valid (subDaysN n d) := by
  induction n generalizing d with
  | zero => exact ⟨le_refl _, h⟩
  | succ m ih =>
    have hv := prevDay_valid d h
    have hk := prevDay_key_lt d h
    obtain ⟨ih1, ih2⟩ := ih (prevDay d) hv
    exact ⟨le_trans ih1 (le_of_lt hk), ih2⟩

theorem addDays_nonpos (k : Int) (hk : k ≤ 0) (d : Date) (h : Valid d) :
    key (addDays k d) ≤ key d ∧ Valid (addDays k d) := by
  unfold addDays
  split
  next h0 =>
    have : k = 0 := le_antisymm hk h0
    subst this
    exact ⟨le_refl _, h⟩
  next => exact subDaysN_key_le _ d h

theorem addMonths_nonpos (v : Int) (hv : v ≤ 0) (d : Date) (h : Valid d) :
    key (addMonths v d) ≤ key d ∧ Valid (addMonths v d) := by
  obtain ⟨h1, h2, h3, h4⟩ := h
  have hd31 : d.day ≤ 31 := le_trans h4 (daysInMonth_le d.year d.month)
  set m1 : Int := d.year * 12 + ((d.month : Int) - 1) + v with hm1
  have hgoal : addMonths v d =
      ⟨m1.ediv 12, (m1.emod 12).toNat + 1,
        min d.day (daysInMonth (m1.ediv 12) ((m1.emod 12).toNat + 1))⟩ := rfl
  rw [hgoal]
  have hdm : 12 * m1.ediv 12 + m1.emod 12 = m1 := Int.ediv_add_emod m1 12
  have hr0 : 0 ≤ m1.emod 12 := Int.emod_nonneg m1 (by norm_num)
  have hr12 : m1.emod 12 < 12 := Int.emod_lt_of_pos m1 (by norm_num)
  generalize hq : m1.ediv 12 = q at hdm ⊢
  generalize hr : m1.emod 12 = r at hdm hr0 hr12 ⊢
  have hdimpos := daysInMonth_pos q (r.toNat + 1)
  have hdimle := daysInMonth_le q (r.toNat + 1)
  have hmin1 : min d.day (daysInMonth q (r.toNat + 1)) ≤ d.day := min_le_left _ _
  have hmin2 : 1 ≤ min d.day (daysInMonth q (r.toNat + 1)) := le_min h3 hdimpos
  constructor
  · show q * 512 + ((r.toNat + 1 : Nat) : Int) * 32 +
      (min d.day (daysInMonth q (r.toNat + 1)) : Nat) ≤
      d.year * 512 + d.month * 32 + d.day
    omega
  · show 1 ≤ r.toNat + 1 ∧ r.toNat + 1 ≤ 12 ∧
      1 ≤ min d.day (daysInMonth q (r.toNat + 1)) ∧
      min d.day (daysInMonth q (r.toNat + 1)) ≤ daysInMonth q (r.toNat + 1)
    exact ⟨by omega, by omega, hmin2, min_le_right _ _⟩

theorem advanceDate_nonpos (ft : String) (fv : Int) (hfv : fv ≤ 0) (d : Date)
    (h : Valid d) :
    ∀ d', advanceDate ft fv d = some d' → key d' ≤ key d ∧ Valid d' := by
  intro d' hd'
  unfold advanceDate at hd'
  split at hd'
  · cases hd'
    exact addDays_nonpos fv hfv d h
  · split at hd'
    · cases hd'
      exact addDays_nonpos (7 * fv) (by omega) d h
    · split at hd'
      · cases hd'
        exact addMonths_nonpos fv hfv d h
      · cases hd'

theorem projLoop_empty_of_nonpos (o : Order) (ft : String) (fv : Int)
    (hfv : fv ≤ 0) (anchor horizon : Date) :
    ∀ fuel current, Valid current → key current ≤ key anchor →
      (projLoop o ft fv anchor horizon current fuel).1 = [] := by
  intro fuel
  induction fuel with
  | zero => intro current _ _; simp [projLoop]
  | succ n ih =>
    intro current hval hle
    simp only [projLoop]
    split
    · have hemit : ¬ key anchor < key current := by omega
      cases hadv : advanceDate ft fv current with
      | some next =>
        obtain ⟨hk, hv⟩ := advanceDate_nonpos ft fv hfv current hval next hadv
        simp [hemit, ih next hv (le_trans hk hle)]
      | none => simp [hemit]
    · rfl

theorem addDays_zero (d : Date) : addDays 0 d = d := rfl

theorem addMonths_zero (d : Date) (h : Valid d) : addMonths 0 d = d := by
  obtain ⟨h1, h2, h3, h4⟩ := h
  show (⟨(d.year * 12 + ((d.month : Int) - 1) + 0).ediv 12,
      ((d.year * 12 + ((d.month : Int) - 1) + 0).emod 12).toNat + 1,
      min d.day (daysInMonth ((d.year * 12 + ((d.month : Int) - 1) + 0).ediv 12)
        (((d.year * 12 + ((d.month : Int) - 1) + 0).emod 12).toNat + 1))⟩ : Date) = d
  have hdm : 12 * (d.year * 12 + ((d.month : Int) - 1) + 0).ediv 12 +
      (d.year * 12 + ((d.month : Int) - 1) + 0).emod 12 =
      d.year * 12 + ((d.month : Int) - 1) + 0 := Int.ediv_add_emod _ 12
  have hr0 : 0 ≤ (d.year * 12 + ((d.month : Int) - 1) + 0).emod 12 :=
    Int.emod_nonneg _ (by norm_num)
  have hr12 : (d.year * 12 + ((d.month : Int) - 1) + 0).emod 12 < 12 :=
    Int.emod_lt_of_pos _ (by norm_num)
  have hy : (d.year * 12 + ((d.month : Int) - 1) + 0).ediv 12 = d.year := by omega
  have hmo : ((d.year * 12 + ((d.month : Int) - 1) + 0).emod 12).toNat + 1 = d.month := by
    omega
  rw [hy, hmo, min_eq_left h4]

theorem advanceDate_zero (ft : String) (d : Date) (h : Valid d)
    (hft : ft = "daily" ∨ ft = "weekly" ∨ ft = "monthly") :
    advanceDate ft 0 d = some d := by
  rcases hft with h1 | h1 | h1 <;> subst h1
  · show some (addDays 0 d) = some d
    rw [addDays_zero]
  · show some (addDays (7 * 0) d) = some d
    norm_num [addDays_zero]
  · show some (addMonths 0 d) = some d
    rw [addMonths_zero d h]

theorem projLoop_fixed (o : Order) (ft : String) (fv : Int) (anchor horizon : Date)
    (hle : key anchor ≤ key horizon)
    (hadv : advanceDate ft fv anchor = some anchor) :
    ∀ fuel, projLoop o ft fv anchor horizon anchor fuel = ([], fuel) := by
  intro fuel
  induction fuel with
  | zero => rfl
  | succ n ih =>
    simp only [projLoop]
    rw [if_pos hle, hadv]
    simp [ih]

theorem generate_eq_loop (horizon : Date) (o : Order) (rp : RecurrencePattern)
    (d : Date) (hrp : o.recurrence_pattern = some rp) (hd : o.delivery_date = some d)
    (hrec : o.is_recurring = true) (hst : o.status ≠ "cancelled") :
    generateRecurringOccurrencesIter horizon o =
      projLoop o rp.frequency_type (rp.frequency_value.getD 1) d horizon d
        maxIterations := by
  have hguard : ¬(o.is_recurring = false ∨ o.recurrence_pattern = none ∨
      o.delivery_date = none ∨ o.status = "cancelled") := by
    simp [hrec, hrp, hd, hst]
  unfold generateRecurringOccurrencesIter
  rw [if_neg hguard, hrp, hd]

theorem generate_length_iters_le (horizon : Date) (o : Order) :
    (generateRecurringOccurrences horizon o).length ≤ maxIterations ∧
    (generateRecurringOccurrencesIter horizon o).2 ≤ maxIterations := by
  unfold generateRecurringOccurrences generateRecurringOccurrencesIter
  split
  · simp [maxIterations]
  · cases hrp : o.recurrence_pattern with
    | none => simp [maxIterations]
    | some rp =>
      cases hdd : o.delivery_date with
      | none => simp [maxIterations]
      | some d0 =>
        exact ⟨projLoop_length_le o rp.frequency_type _ d0 horizon maxIterations d0,
          projLoop_iters_le o rp.frequency_type _ d0 horizon maxIterations d0⟩

theorem generate_mem_bounds (horizon : Date) (o : Order) (rp : RecurrencePattern)
    (d : Date) (hrp : o.recurrence_pattern = some rp)
    (hd : o.delivery_date = some d) :
    ∀ occ ∈ generateRecurringOccurrences horizon o,
      key d < key occ.delivery_date ∧ key occ.delivery_date ≤ key horizon := by
  unfold generateRecurringOccurrences generateRecurringOccurrencesIter
  split
  · simp
  · rw [hrp, hd]
    exact fun occ hocc =>
      projLoop_mem_bounds o rp.frequency_type _ d horizon maxIterations d occ hocc

theorem projLoop_none_step (o : Order) (ft : String) (fv : Int)
    (anchor horizon : Date) (hadv : advanceDate ft fv anchor = none) :
    ∀ fuel, (projLoop o ft fv anchor horizon anchor fuel).1 = [] := by
  intro fuel
  cases fuel with
  | zero => rfl
  | succ n =>
    simp only [projLoop]
    split
    · rw [hadv]
      simp [lt_irrefl]
    · rfl

/-! ### Claim theorems -/

/-- C1: for every order whose recurrence pattern has `frequency_value ≥ 1`
and a recognized `frequency_type` (daily, weekly or monthly), projection
terminates (it is a total function) and returns at most `maxIterations =
200` occurrences, every returned occurrence date lying strictly after the
anchor `delivery_date` and at or before the horizon; in particular the
anchor date itself never appears in the output. -/
theorem C1_projection_bounded (horizon : Date) (o : Order)
    (rp : RecurrencePattern) (d : Date)
    (hrp : o.recurrence_pattern = some rp) (hd : o.delivery_date = some d)
    (_hfv : 1 ≤ rp.frequency_value.getD 1)
    (_hft : rp.frequency_type = "daily" ∨ rp.frequency_type = "weekly" ∨
      rp.frequency_type = "monthly") :
    (generateRecurringOccurrences horizon o).length ≤ maxIterations ∧
    (∀ occ ∈ generateRecurringOccurrences horizon o,
      key d < key occ.delivery_date ∧ key occ.delivery_date ≤ key horizon ∧
      occ.delivery_date ≠ d) := by
  refine ⟨(generate_length_iters_le horizon o).1, fun occ hocc => ?_⟩
  obtain ⟨hlt, hle⟩ := generate_mem_bounds horizon o rp d hrp hd occ hocc
  refine ⟨hlt, hle, fun heq => ?_⟩
  rw [heq] at hlt
  exact lt_irrefl _ hlt

theorem C1_witness :
    exampleWeeklyOrder.recurrence_pattern = some ⟨"weekly", some 1⟩ ∧
    exampleWeeklyOrder.delivery_date = some ⟨2025, 1, 1⟩ ∧
    1 ≤ (RecurrencePattern.mk "weekly" (some 1)).frequency_value.getD 1 ∧
    (generateRecurringOccurrences exampleHorizon exampleWeeklyOrder).length ≤
      maxIterations ∧
    (∀ occ ∈ generateRecurringOccurrences exampleHorizon exampleWeeklyOrder,
      key ⟨2025, 1, 1⟩ < key occ.delivery_date ∧
      key occ.delivery_date ≤ key exampleHorizon ∧
      occ.delivery_date ≠ ⟨2025, 1, 1⟩) := by
  have h := C1_projection_bounded exampleHorizon exampleWeeklyOrder
    ⟨"weekly", some 1⟩ ⟨2025, 1, 1⟩ rfl rfl (by decide) (Or.inr (Or.inl rfl))
  exact ⟨rfl, rfl, by decide, h.1, h.2⟩

/-- C3: for the order anchored at 2025-01-01 with a weekly interval-1
pattern and horizon 2025-01-31, projection returns exactly the four dates
2025-01-08, 2025-01-15, 2025-01-22 and 2025-01-29 (anchor excluded, last
at or before the horizon). -/
theorem C3_weekly_scenario :
    (generateRecurringOccurrences exampleHorizon exampleWeeklyOrder).map
        (fun occ => occ.delivery_date) =
      [⟨2025, 1, 8⟩, ⟨2025, 1, 15⟩, ⟨2025, 1, 22⟩, ⟨2025, 1, 29⟩] := by
  decide

/-- C4: any precondition failure — `is_recurring` false, missing
`recurrence_pattern`, missing `delivery_date`, or `status = "cancelled"`
— makes projection return the empty sequence (and, being a total
function, it never raises), regardless of the other fields. -/
theorem C4_precondition_empty (horizon : Date) (o : Order)
    (h : o.is_recurring = false ∨ o.recurrence_pattern = none ∨
      o.delivery_date = none ∨ o.status = "cancelled") :
    generateRecurringOccurrencesIter horizon o = ([], 0) ∧
    generateRecurringOccurrences horizon o = [] := by
  have h1 : generateRecurringOccurrencesIter horizon o = ([], 0) := by
    unfold generateRecurringOccurrencesIter
    rw [if_pos h]
  refine ⟨h1, ?_⟩
  unfold generateRecurringOccurrences
  rw [h1]

theorem C4_witness :
    (cancelledOrder.is_recurring = false ∨ cancelledOrder.recurrence_pattern = none ∨
      cancelledOrder.delivery_date = none ∨ cancelledOrder.status = "cancelled") ∧
    generateRecurringOccurrences exampleHorizon cancelledOrder = [] := by
  have h : cancelledOrder.status = "cancelled" := rfl
  exact ⟨Or.inr (Or.inr (Or.inr h)),
    (C4_precondition_empty exampleHorizon cancelledOrder
      (Or.inr (Or.inr (Or.inr h)))).2⟩

/-- C6: an unrecognized `frequency_type` (neither daily, weekly nor
monthly) makes the projection loop terminate on the first advance attempt,
so no occurrence beyond the anchor is emitted: the result is empty. -/
theorem C6_unknown_type_empty (horizon : Date) (o : Order)
    (rp : RecurrencePattern) (hrp : o.recurrence_pattern = some rp)
    (h1 : rp.frequency_type ≠ "daily") (h2 : rp.frequency_type ≠ "weekly")
    (h3 : rp.frequency_type ≠ "monthly") :
    generateRecurringOccurrences horizon o = [] := by
  have hadv : ∀ d0, advanceDate rp.frequency_type (rp.frequency_value.getD 1) d0 =
      none := by
    intro d0
    unfold advanceDate
    rw [if_neg h1, if_neg h2, if_neg h3]
  unfold generateRecurringOccurrences generateRecurringOccurrencesIter
  split
  · rfl
  next hguard =>
    cases hdd : o.delivery_date with
    | none => exact absurd (Or.inr (Or.inr (Or.inl hdd))) hguard
    | some d0 =>
      rw [hrp]
      exact projLoop_none_step o rp.frequency_type (rp.frequency_value.getD 1)
        d0 horizon (hadv d0) maxIterations

theorem C6_witness :
    unknownTypeOrder.recurrence_pattern = some ⟨"fortnightly", some 1⟩ ∧
    generateRecurringOccurrences exampleHorizon unknownTypeOrder = [] := by
  refine ⟨rfl, C6_unknown_type_empty exampleHorizon unknownTypeOrder
    ⟨"fortnightly", some 1⟩ rfl ?_ ?_ ?_⟩ <;> decide

/-- C7: projection is deterministic — it depends only on the order and
horizon passed in, so two calls with equal inputs return equal occurrence
sequences. -/
theorem C7_deterministic (hz1 hz2 : Date) (o1 o2 : Order)
    (ho : o1 = o2) (hh : hz1 = hz2) :
    generateRecurringOccurrences hz1 o1 = generateRecurringOccurrences hz2 o2 := by
  subst ho
  subst hh
  rfl

theorem C7_witness :
    exampleWeeklyOrder = exampleWeeklyOrder ∧
    generateRecurringOccurrences exampleHorizon exampleWeeklyOrder =
      generateRecurringOccurrences exampleHorizon exampleWeeklyOrder :=
  ⟨rfl, C7_deterministic exampleHorizon exampleHorizon exampleWeeklyOrder
    exampleWeeklyOrder rfl rfl⟩

set_option maxRecDepth 4000 in
/-- C5 (counterexample): a zero `frequency_value` is NOT rejected before
the projection loop is entered.  For the weekly order with
`frequency_value = 0` anchored at 2025-01-01 (anchor at or before the
horizon), the loop runs and its iteration counter reaches the full
`maxIterations = 200` — not 0, as an up-front rejection would give. -/
theorem C5_counterexample :
    (generateRecurringOccurrencesIter exampleHorizon zeroIntervalOrder).2 = 200 ∧
    ¬ (generateRecurringOccurrencesIter exampleHorizon zeroIntervalOrder).2 = 0 := by
  decide

/-- C5 (amended): a recurrence pattern with `frequency_value = 0` is not
detected up front; projection enters the loop with a non-advancing date,
the loop runs the full `maxIterations = 200` iterations emitting nothing,
and the result is the empty list — termination is guaranteed solely by
the iteration cap. -/
theorem C5_zero_interval_loops (horizon : Date) (o : Order)
    (rp : RecurrencePattern) (d : Date)
    (hrec : o.is_recurring = true) (hst : o.status ≠ "cancelled")
    (hrp : o.recurrence_pattern = some rp) (hd : o.delivery_date = some d)
    (hval : Valid d) (hfv : rp.frequency_value = some 0)
    (hft : rp.frequency_type = "daily" ∨ rp.frequency_type = "weekly" ∨
      rp.frequency_type = "monthly")
    (hle : key d ≤ key horizon) :
    generateRecurringOccurrencesIter horizon o = ([], maxIterations) := by
  rw [generate_eq_loop horizon o rp d hrp hd hrec hst]
  have hadv : advanceDate rp.frequency_type (rp.frequency_value.getD 1) d =
      some d := by
    rw [hfv]
    exact advanceDate_zero rp.frequency_type d hval hft
  exact projLoop_fixed o rp.frequency_type _ d horizon hle hadv maxIterations

theorem C5_witness :
    zeroIntervalOrder.is_recurring = true ∧
    zeroIntervalOrder.recurrence_pattern = some ⟨"weekly", some 0⟩ ∧
    Valid ⟨2025, 1, 1⟩ ∧
    key ⟨2025, 1, 1⟩ ≤ key exampleHorizon ∧
    generateRecurringOccurrencesIter exampleHorizon zeroIntervalOrder =
      ([], maxIterations) :=
  ⟨rfl, rfl, by decide, by decide,
    C5_zero_interval_loops exampleHorizon zeroIntervalOrder
      ⟨"weekly", some 0⟩ ⟨2025, 1, 1⟩ rfl (by decide) rfl rfl (by decide) rfl
      (Or.inr (Or.inl rfl)) (by decide)⟩

/-- C10: projection is total — for every order and pattern (including
zero or negative `frequency_value` and arbitrary `frequency_type`) it
returns a finite list of at most `maxIterations = 200` occurrences after
at most 200 loop iterations; and when the interval never advances the
date past the anchor (`frequency_value ≤ 0`, for a valid anchor date) the
returned list is empty. -/
theorem C10_total_bounded (horizon : Date) (o : Order) :
    (generateRecurringOccurrences horizon o).length ≤ maxIterations ∧
    (generateRecurringOccurrencesIter horizon o).2 ≤ maxIterations ∧
    (∀ rp d, o.recurrence_pattern = some rp → o.delivery_date = some d →
      Valid d → rp.frequency_value.getD 1 ≤ 0 →
      generateRecurringOccurrences horizon o = []) := by
  refine ⟨(generate_length_iters_le horizon o).1,
    (generate_length_iters_le horizon o).2, ?_⟩
  intro rp d hrp hd hval hfv
  unfold generateRecurringOccurrences generateRecurringOccurrencesIter
  split
  · rfl
  · rw [hrp, hd]
    exact projLoop_empty_of_nonpos o rp.frequency_type _ hfv d horizon
      maxIterations d hval (le_refl _)

theorem C10_witness :
    negativeIntervalOrder.recurrence_pattern = some ⟨"daily", some (-3)⟩ ∧
    Valid ⟨2025, 1, 1⟩ ∧
    (RecurrencePattern.mk "daily" (some (-3))).frequency_value.getD 1 ≤ 0 ∧
    (generateRecurringOccurrences exampleHorizon negativeIntervalOrder).length ≤
      maxIterations ∧
    generateRecurringOccurrences exampleHorizon negativeIntervalOrder = [] := by
  have h := C10_total_bounded exampleHorizon negativeIntervalOrder
  exact ⟨rfl, by decide, by decide, h.1,
    h.2.2 ⟨"daily", some (-3)⟩ ⟨2025, 1, 1⟩ rfl rfl (by decide) (by decide)⟩

/-- C2: `approve` requires a pending modification status; with a pending
proposal whose item set is present it unconditionally recomputes
`total_amount` as the subtotal of the proposed items, replaces the
order's items with the proposed set, sets `modification_status` to
approved and clears `pending_modifications`. -/
theorem C2_approve_recomputes (o : Order) (pm : Proposal) (its : List Item)
    (hst : o.modification_status = some ModStatus.pending)
    (hpm : o.pending_modifications = some pm) (hits : pm.items = some its) :
    approve o = Except.ok { o with
      items := its
      total_amount := (computeTotal its).subtotal
      modification_status := some ModStatus.approved
      pending_modifications := none } := by
  unfold approve
  rw [hst, hpm]
  simp [hits]

theorem C2_witness :
    modOrder.modification_status = some ModStatus.pending ∧
    modOrder.pending_modifications = some ⟨some proposedItems, 95⟩ ∧
    approve modOrder = Except.ok modOrderApproved ∧
    modOrderApproved.total_amount = 95 ∧
    modOrderApproved.items = proposedItems ∧
    gstInclusiveTotal modOrderApproved.total_amount = 209 / 2 := by
  refine ⟨rfl, rfl, ?_, ?_, rfl, ?_⟩
  · exact C2_approve_recomputes modOrder ⟨some proposedItems, 95⟩ proposedItems
      rfl rfl rfl
  · show (computeTotal proposedItems).subtotal = 95
    norm_num [computeTotal, proposedItems]
  · show gstInclusiveTotal (computeTotal proposedItems).subtotal = 209 / 2
    norm_num [computeTotal, proposedItems, gstInclusiveTotal, round2]

/-- C8: the price computation satisfies `total = subtotal + tax`, with
the subtotal the sum of quantity times unit price over the items and the
tax the half-up 2-decimal rounding of `subtotal × TAX_RATE`
(`TAX_RATE = 0.10`); repeated calls on the same item set return
identical results. -/
theorem C8_price_agreement (I : List Item) :
    (computeTotal I).total = (computeTotal I).subtotal + (computeTotal I).tax ∧
    (computeTotal I).subtotal = (I.map (fun it => it.quantity * it.price)).sum ∧
    (computeTotal I).tax = round2 ((computeTotal I).subtotal * TAX_RATE) ∧
    computeTotal I = computeTotal I :=
  ⟨rfl, rfl, rfl, rfl⟩

/-- C9: `reject` requires a pending modification status; it returns the
order unchanged except that `modification_status` becomes rejected and
`pending_modifications` is cleared — `items`, `total_amount` and every
other field keep their pre-proposal values. -/
theorem C9_reject_frame (o : Order)
    (hst : o.modification_status = some ModStatus.pending) :
    reject o = Except.ok { o with
      modification_status := some ModStatus.rejected
      pending_modifications := none } ∧
    (∀ o', reject o = Except.ok o' →
      o'.items = o.items ∧ o'.total_amount = o.total_amount ∧
      o'.id = o.id ∧ o'.status = o.status ∧
      o'.delivery_date = o.delivery_date ∧ o'.is_recurring = o.is_recurring ∧
      o'.recurrence_pattern = o.recurrence_pattern ∧
      o'.modification_status = some ModStatus.rejected ∧
      o'.pending_modifications = none) := by
  have h1 : reject o = Except.ok { o with
      modification_status := some ModStatus.rejected
      pending_modifications := none } := by
    unfold reject
    rw [hst]
  refine ⟨h1, fun o' ho' => ?_⟩
  rw [h1] at ho'
  injection ho' with h2
  subst h2
  exact ⟨rfl, rfl, rfl, rfl, rfl, rfl, rfl, rfl, rfl⟩

theorem C9_witness :
    modOrder.modification_status = some ModStatus.pending ∧
    reject modOrder = Except.ok { modOrder with
      modification_status := some ModStatus.rejected
      pending_modifications := none } ∧
    ({ modOrder with
      modification_status := some ModStatus.rejected
      pending_modifications := none } : Order).items = modOrder.items ∧
    ({ modOrder with
      modification_status := some ModStatus.rejected
      pending_modifications := none } : Order).total_amount =
      modOrder.total_amount := by
  have h := C9_reject_frame modOrder rfl
  exact ⟨rfl, h.1, rfl, rfl⟩

end Laundry
